import Mathlib

/-!
gotgbot: the transport layer (`request/http.go`, `request/request.go`) and `NewBot` (`bot.go`)

A shallow embedding of the built-in HTTP transport of gotgbot and of the session
constructor, followed by theorems about them.

Conventions of the embedding

* A Go `string` is a Lean `String`; `time.Duration` (an `int64` count of nanoseconds) is an
  `Int`; a byte is a `Fin 256`.
* A Go value that can be `nil` (`json.RawMessage`, `error`, an interface, a map, a pointer) is an
  `Option`, with `none` for `nil`.
* A method with a pointer receiver that writes to the receiver returns the receiver's new state
  next to its Go results.
* A Go result pair `(json.RawMessage, error)` is a Lean pair of two options, so that the four
  combinations of `nil` and non-`nil` stay distinguishable.
* What the standard library and the network do (URL parsing, query encoding, the HTTP round trip,
  JSON decoding, the multipart boundary) is a parameter, collected in `Net`.
-/

namespace Gotgbot

/-! ## Standard-library values -/

/-- One byte. -/
abbrev Byte := Fin 256

/-- Go `time.Duration`: nanoseconds. -/
abbrev Duration := Int

/-- Go `time.Second`. -/
def Second : Duration := 1000000000

/-- Go `url.Values`: keys with their lists of values. -/
abbrev Values := List (String × List String)

/-- Go `json.RawMessage`: a byte slice, `none` when the slice is `nil`. -/
abbrev RawMessage := Option (List Byte)

/-- Go `strings.HasSuffix`: `len(s) >= len(suffix) && s[len(s)-len(suffix):] == suffix`. -/
def HasSuffix (s suffix : String) : Bool :=
  decide (suffix.data.length ≤ s.data.length) &&
    decide (s.data.drop (s.data.length - suffix.data.length) = suffix.data)

/-- Go `strings.TrimSuffix`: `s` without the trailing `suffix` when it has it, else `s`. -/
def TrimSuffix (s suffix : String) : String :=
  if HasSuffix s suffix then ⟨s.data.take (s.data.length - suffix.data.length)⟩ else s

/-- Go `context.Context`, as far as the transport builds it. -/
inductive Context where
  | Background
  | WithTimeout (parent : Context) (timeout : Duration)
  deriving DecidableEq

/-- Go `http.Header`, as a list of key and value. -/
abbrev Header := List (String × String)

/-- Go `Header.Set`: the key now holds this single value. -/
def Header.Set (h : Header) (key value : String) : Header :=
  h.filter (fun kv => kv.1 ≠ key) ++ [(key, value)]

/-! ## `request/request.go` -/

/-- DefaultAPIURL is the default telegram API URL. -/
def DefaultAPIURL : String := "https://api.telegram.org"

/-- DefaultGetTimeout is the default timeout to be set for a GET request. -/
def DefaultGetTimeout : Duration := Second * 3

/-- DefaultPostTimeout is the default timeout to be set for a POST request. -/
def DefaultPostTimeout : Duration := Second * 10

/-- The response envelope `Response`. -/
structure Response where
  Ok : Bool
  Result : RawMessage
  ErrorCode : Int
  Description : String
  Parameters : RawMessage
  deriving DecidableEq

/-- The remote error `TelegramError`. -/
structure TelegramError where
  Method : String
  Params : Values
  Code : Int
  Description : String
  deriving DecidableEq

/-- A Go `error` value other than `nil`: an error of the standard library, an error wrapped by
`fmt.Errorf("<context>: %w", inner)`, or a `*TelegramError`. -/
inductive GoError where
  | lib (msg : String)
  | wrap (context : String) (inner : GoError)
  | telegram (e : TelegramError)
  deriving DecidableEq

/-- Go `(*TelegramError).Error`. -/
def TelegramError.Error (t : TelegramError) : String :=
  "unable to " ++ t.Method ++ ": " ++ t.Description

/-- The Go result pair `(json.RawMessage, error)` of `Get` and `Post`. -/
abbrev Result := RawMessage × Option GoError

/-- An `io.Reader`: the bytes it yields, and the error that ends it (`none` for `io.EOF`). -/
structure Reader where
  data : List Byte
  err : Option GoError
  deriving DecidableEq

/-- The interface `NamedReader`: what `Name()` returns and the stream behind `Read`. -/
structure NamedReader where
  Name : String
  stream : Reader
  deriving DecidableEq

/-- The struct `NamedFile`. -/
structure NamedFile where
  File : Reader
  FileName : String
  deriving DecidableEq

/-- `NamedFile` as a `NamedReader`: `Read` reads `nf.File`, `Name` returns `nf.FileName`. -/
def NamedFile.asNamedReader (nf : NamedFile) : NamedReader :=
  { Name := nf.FileName, stream := nf.File }

/-- Go `map[string]NamedReader`: `none` for the `nil` map, else the entries in the order in which
`range` visits them. -/
abbrev Attachments := Option (List (String × NamedReader))

/-- Go `len(data)` of a map. -/
def Attachments.len (data : Attachments) : Nat :=
  match data with
  | none => 0
  | some es => es.length

/-- The entries `range data` visits. -/
def Attachments.entries (data : Attachments) : List (String × NamedReader) :=
  match data with
  | none => []
  | some es => es

/-- One part of a multipart form, as written: the `name` and `filename` parameters of its
`Content-Disposition` header, as they stand between the quotes, and the bytes of its body. -/
structure Part where
  FormName : String
  FileName : String
  Body : List Byte
  deriving DecidableEq

/-- The `bytes.Buffer` that becomes the request body. It is written only through a
`multipart.Writer`, so its content is the parts written so far and whether the closing boundary
was written. -/
structure Buffer where
  parts : List Part
  closed : Bool
  deriving DecidableEq

/-- The wire format of `mime/multipart`: the bytes that open a part (boundary line and headers;
the flag tells whether it is the first part) and the bytes of the closing boundary. -/
structure Wire where
  PartHeader : Bool → String → String → List Byte
  Closing : List Byte

/-- The bytes `parts` occupy, `first` telling whether the next part opens the form. -/
def Wire.partsBytes (wire : Wire) (first : Bool) : List Part → List Byte
  | [] => []
  | p :: ps => wire.PartHeader first p.FormName p.FileName ++ p.Body ++ wire.partsBytes false ps

/-- Go `(*bytes.Buffer).Bytes`: the bytes held by the buffer. -/
def Buffer.Bytes (b : Buffer) (wire : Wire) : List Byte :=
  wire.partsBytes true b.parts ++ (if b.closed then wire.Closing else [])

/-- Go `multipart.Writer` over a `bytes.Buffer`. -/
structure Writer where
  buf : Buffer
  boundary : String
  deriving DecidableEq

/-- Go `multipart.NewWriter`; the random boundary is given. -/
def NewWriter (boundary : String) (b : Buffer) : Writer :=
  { buf := b, boundary := boundary }

/-- What the replacer `quoteEscaper` of `mime/multipart` writes for one character: a backslash
and a double quote get a backslash in front, a carriage return becomes `%0D` and a line feed
`%0A`; every other character stays. -/
def escapeChar (c : Char) : List Char :=
  if c = Char.ofNat 92 then [Char.ofNat 92, Char.ofNat 92]
  else if c = Char.ofNat 34 then [Char.ofNat 92, Char.ofNat 34]
  else if c = Char.ofNat 13 then ['%', '0', 'D']
  else if c = Char.ofNat 10 then ['%', '0', 'A']
  else [c]

/-- The replacer applied to every character in turn. -/
def escapeChars : List Char → List Char
  | [] => []
  | c :: cs => escapeChar c ++ escapeChars cs

/-- Go `escapeQuotes` of `mime/multipart`. -/
def escapeQuotes (s : String) : String := ⟨escapeChars s.data⟩

/-- Go `(*multipart.Writer).CreateFormFile`: opens a new part whose header holds
`escapeQuotes(fieldname)` as name and `escapeQuotes(filename)` as file name. Writing to a
`bytes.Buffer` does not fail, so the error is `nil`. -/
def Writer.CreateFormFile (w : Writer) (fieldname filename : String) : Writer × Option GoError :=
  ({ w with buf := { w.buf with
      parts := w.buf.parts ++ [⟨escapeQuotes fieldname, escapeQuotes filename, []⟩] } }, none)

/-- Writing `bs` to the part opened last. -/
def Writer.writePart (w : Writer) (bs : List Byte) : Writer :=
  match w.buf.parts.getLast? with
  | none => w
  | some p =>
    { w with buf := { w.buf with
        parts := w.buf.parts.dropLast ++ [{ p with Body := p.Body ++ bs }] } }

/-- Go `io.Copy(part, file)`: every byte the stream yields is written to the open part; the
error is the stream's, `nil` when it ends with `io.EOF`. -/
def ioCopy (w : Writer) (file : NamedReader) : Writer × Option GoError :=
  (w.writePart file.stream.data, file.stream.err)

/-- Go `(*multipart.Writer).Close`: writes the closing boundary. -/
def Writer.Close (w : Writer) : Writer × Option GoError :=
  ({ w with buf := { w.buf with closed := true } }, none)

/-- Go `(*multipart.Writer).FormDataContentType`. -/
def Writer.FormDataContentType (w : Writer) : String :=
  "multipart/form-data; boundary=" ++ w.boundary

/-- The `for field, file := range data` loop of `fillBuffer`: the writer after the loop, and the
error with which the function returns from inside the loop, if it does. -/
def fillBufferLoop (w : Writer) : List (String × NamedReader) → Writer × Option GoError
  | [] => (w, none)
  | (field, file) :: rest =>
    let fileName := if file.Name = "" then field else file.Name
    match w.CreateFormFile field fileName with
    | (w, some err) =>
      (w, some (.wrap ("failed to create form file for field " ++ field ++ " and fileName "
        ++ fileName) err))
    | (w, none) =>
      match ioCopy w file with
      | (w, some err) =>
        (w, some (.wrap ("failed to copy file contents of field " ++ field ++ " to form") err))
      | (w, none) => fillBufferLoop w rest

/-- The function `fillBuffer`: the buffer after the call, the content type and the error. -/
def fillBuffer (boundary : String) (b : Buffer) (data : Attachments) :
    Buffer × String × Option GoError :=
  let w := NewWriter boundary b
  match fillBufferLoop w data.entries with
  | (w, some err) => (w.buf, "", some err)
  | (w, none) =>
    match w.Close with
    | (w, some err) => (w.buf, "", some (.wrap "failed to close multipart form writer" err))
    | (w, none) => (w.buf, w.FormDataContentType, none)

/-! ## `request/http.go` -/

/-- Go `http.Client`, identified by its configuration; `0` is the zero value of `http.Client`. -/
structure HttpClient where
  config : Nat
  deriving DecidableEq

/-- The struct `BuiltinHttp`. -/
structure BuiltinHttp where
  ApiUrl : String
  BotToken : String
  Client : HttpClient
  PostTimeout : Duration
  GetTimeout : Duration
  deriving DecidableEq

/-- Go `http.Request`, as far as the transport fills it; `Body` is `none` for a `nil` body. -/
structure Request where
  ctx : Context
  Method : String
  URL : String
  RawQuery : String
  Header : Header
  Body : Option Buffer
  deriving DecidableEq

/-- What the standard library and the remote side do during a call. -/
structure Net where
  /-- Go `url.Parse` inside `http.NewRequestWithContext`: the error for a URL it rejects. -/
  parseError : String → Option GoError
  /-- Go `url.Values.Encode`. -/
  Encode : Values → String
  /-- Go `http.Client.Do`: the response body, or the error of the round trip. -/
  Do : HttpClient → Request → Except GoError (List Byte)
  /-- Go `json.NewDecoder(resp.Body).Decode(&r)` on the zero `Response`. -/
  Decode : List Byte → Except GoError Response
  /-- The boundary drawn by `multipart.NewWriter`. -/
  Boundary : String

/-- Go `http.NewRequestWithContext` for the methods `GET` and `POST`: it rejects a `nil` context
and a URL that does not parse. -/
def NewRequestWithContext (env : Net) (ctx : Option Context) (method url : String)
    (body : Option Buffer) : Except GoError Request :=
  match ctx with
  | none => .error (.lib "net/http: nil Context")
  | some c =>
    match env.parseError url with
    | some err => .error err
    | none =>
      .ok { ctx := c, Method := method, URL := url, RawQuery := "", Header := [], Body := body }

/-- GetAPIURL returns the currently used API endpoint. -/
def BuiltinHttp.GetAPIURL (h : BuiltinHttp) : String :=
  if h.ApiUrl = "" then DefaultAPIURL
  else
    -- Trim suffix to ensure consistent output
    TrimSuffix h.ApiUrl "/"

/-- The method `methodEnpoint`: `fmt.Sprintf("%s/bot%s/%s", h.GetAPIURL(), h.BotToken, method)`. -/
def BuiltinHttp.methodEnpoint (h : BuiltinHttp) (method : String) : String :=
  h.GetAPIURL ++ "/bot" ++ h.BotToken ++ "/" ++ method

/-- GetWithContext allows sending a Get request with an existing context. -/
def BuiltinHttp.GetWithContext (env : Net) (h : BuiltinHttp) (ctx : Option Context)
    (method : String) (params : Values) : Result :=
  match NewRequestWithContext env ctx "GET" (h.methodEnpoint method) none with
  | .error err => (none, some (.wrap ("failed to build GET request to " ++ method) err))
  | .ok req =>
    let req := { req with RawQuery := env.Encode params }
    match env.Do h.Client req with
    | .error err => (none, some (.wrap ("failed to execute GET request to " ++ method) err))
    | .ok body =>
      match env.Decode body with
      | .error err => (none, some (.wrap ("failed to decode GET request to " ++ method) err))
      | .ok r =>
        if !r.Ok then
          (none, some (.telegram
            { Method := method, Params := params, Code := r.ErrorCode,
              Description := r.Description }))
        else (r.Result, none)

/-- The method `Get`: the transport after the call, and the result pair. -/
def BuiltinHttp.Get (env : Net) (h : BuiltinHttp) (method : String) (params : Values) :
    BuiltinHttp × Result :=
  let h := if h.GetTimeout = 0 then { h with GetTimeout := DefaultGetTimeout } else h
  let ctx := Context.WithTimeout Context.Background h.GetTimeout
  (h, h.GetWithContext env (some ctx) method params)

/-- PostWithContext allows sending a Post request with an existing context. -/
def BuiltinHttp.PostWithContext (env : Net) (h : BuiltinHttp) (ctx : Option Context)
    (method : String) (params : Values) (data : Attachments) : Result :=
  let b : Buffer := { parts := [], closed := false }
  let contentType := "application/json"
  match (if data.len > 0 then fillBuffer env.Boundary b data else (b, contentType, none)) with
  | (_, _, some err) => (none, some err)
  | (b, contentType, none) =>
    match NewRequestWithContext env ctx "POST" (h.methodEnpoint method) (some b) with
    | .error err => (none, some (.wrap ("failed to build POST request to " ++ method) err))
    | .ok req =>
      let req := { req with RawQuery := env.Encode params }
      let req := { req with Header := req.Header.Set "Content-Type" contentType }
      match env.Do h.Client req with
      | .error err => (none, some (.wrap ("failed to execute POST request to " ++ method) err))
      | .ok body =>
        match env.Decode body with
        | .error err => (none, some (.wrap ("failed to decode POST request to " ++ method) err))
        | .ok r =>
          if !r.Ok then
            (none, some (.telegram
              { Method := method, Params := params, Code := r.ErrorCode,
                Description := r.Description }))
          else (r.Result, none)

/-- The method `Post`: the transport after the call, and the result pair. -/
def BuiltinHttp.Post (env : Net) (h : BuiltinHttp) (method : String) (params : Values)
    (data : Attachments) : BuiltinHttp × Result :=
  let h := if h.PostTimeout = 0 then { h with PostTimeout := DefaultPostTimeout } else h
  let ctx := Context.WithTimeout Context.Background h.PostTimeout
  (h, h.PostWithContext env (some ctx) method params data)

/-- The method `SetGetTimeout`: the transport after the call. -/
def BuiltinHttp.SetGetTimeout (h : BuiltinHttp) (t : Duration) : BuiltinHttp :=
  { h with GetTimeout := t }

/-- The method `SetPostTimeout`: the transport after the call. The source assigns
`h.GetTimeout = t`. -/
def BuiltinHttp.SetPostTimeout (h : BuiltinHttp) (t : Duration) : BuiltinHttp :=
  { h with GetTimeout := t }

/-! ## `bot.go` -/

/-- The interface `RequestType` as a value: a pointer to the built-in transport, or a transport
supplied by the caller, identified by a name. -/
inductive RequestType where
  | builtin (h : BuiltinHttp)
  | custom (name : String)
  deriving DecidableEq

/-- Bot is the core Bot object used to send and receive messages. The embedded `User` struct is
declared in generated code; its type is the parameter `U`. -/
structure Bot (U : Type) where
  User : U
  Request : Option RequestType
  deriving DecidableEq

/-- BotOpts declares all optional parameters for the NewBot function. -/
structure BotOpts where
  APIURL : String
  Request : Option RequestType
  GetTimeout : Duration
  PostTimeout : Duration
  deriving DecidableEq

/-- NewBot returns a new Bot struct populated with the necessary defaults. The generated method
`GetMe`, which has a pointer receiver, is the parameter `getMe`: it returns the session after the
call next to the user or the error. `opts` is `none` for a `nil` pointer; the result is the pair
`(*Bot, error)`. -/
def NewBot {U : Type} [Inhabited U] (getMe : Bot U → Bot U × Except GoError U) (token : String)
    (opts : Option BotOpts) : Option (Bot U) × Option GoError :=
  let b : Bot U := { User := default, Request := none }
  let getTimeout := DefaultGetTimeout
  let postTimeout := DefaultPostTimeout
  let apiUrl := DefaultAPIURL
  let (b, apiUrl, getTimeout, postTimeout) :=
    match opts with
    | some o => ({ b with Request := o.Request }, o.APIURL, o.GetTimeout, o.PostTimeout)
    | none => (b, apiUrl, getTimeout, postTimeout)
  let b := { b with Request := some (RequestType.builtin
    { ApiUrl := apiUrl, BotToken := token, Client := ⟨0⟩,
      PostTimeout := postTimeout, GetTimeout := getTimeout }) }
  match getMe b with
  | (_, .error err) => (none, some err)
  | (b, .ok u) => (some { b with User := u }, none)

/-! ## Views and sample values used by the theorems -/

/-- The built-in transport with base URL `u`, and the other fields zero. -/
def transportAt (u : String) : BuiltinHttp :=
  { ApiUrl := u, BotToken := "", Client := ⟨0⟩, PostTimeout := 0, GetTimeout := 0 }

/-- URL normalization: `GetAPIURL` as a function of the configured base URL. -/
def normalize (u : String) : String := (transportAt u).GetAPIURL

/-- A network in which every URL parses, the query string lists `key=value` pairs joined by `&`,
every round trip succeeds and is answered with the body `answer`, and the decoder yields the
envelope `r` for that body and rejects every other body. -/
def sampleNet (answer : List Byte) (r : Response) : Net :=
  { parseError := fun _ => none
    Encode := fun vs =>
      "&".intercalate (vs.map fun kv => kv.1 ++ "=" ++ ",".intercalate kv.2)
    Do := fun _ _ => .ok answer
    Decode := fun body =>
      if body = answer then .ok r else .error (.lib "invalid character")
    Boundary := "xyz" }

/-- The transport `NewBot` builds for the token "T" when its options hold only zero values. -/
def sampleTransport : BuiltinHttp :=
  { ApiUrl := "", BotToken := "T", Client := ⟨0⟩, PostTimeout := 0, GetTimeout := 0 }

/-- A transport with both timeouts set, to 3 and to 10 seconds. -/
def configuredTransport : BuiltinHttp :=
  { ApiUrl := "", BotToken := "T", Client := ⟨0⟩, PostTimeout := 10 * Second,
    GetTimeout := 3 * Second }

/-- The envelope decoded from a body whose ok field is true and whose result field is `true`. -/
def okEnvelope : Response :=
  { Ok := true, Result := some [116, 114, 117, 101], ErrorCode := 0, Description := "",
    Parameters := none }

/-- The envelope decoded from a body whose ok field is true and whose result field is absent. -/
def okEnvelopeNoResult : Response :=
  { Ok := true, Result := none, ErrorCode := 0, Description := "", Parameters := none }

/-- The envelope decoded from a body whose ok field is false, with error code 401 and the
description "Unauthorized". -/
def errorEnvelope : Response :=
  { Ok := false, Result := none, ErrorCode := 401, Description := "Unauthorized",
    Parameters := none }

/-- The form part of one attachment: named by the field name; with the declared file name, or
the field name when the declared file name is empty; holding the bytes of the stream. Both names
stand in the header as `escapeQuotes` writes them. -/
def formPart (e : String × NamedReader) : Part :=
  { FormName := escapeQuotes e.1,
    FileName := escapeQuotes (if e.2.Name = "" then e.1 else e.2.Name),
    Body := e.2.stream.data }

/-- A name holds none of the characters the multipart writer escapes: backslash, double quote,
carriage return, line feed. -/
def plainName (s : String) : Bool :=
  s.data.all fun c =>
    c != Char.ofNat 92 && c != Char.ofNat 34 && c != Char.ofNat 13 && c != Char.ofNat 10

/-- Two attachments, the stream of the first failing after one byte. -/
def failingAttachments : Attachments :=
  some [("a", ⟨"a.png", ⟨[1], some (.lib "unexpected EOF")⟩⟩), ("b", ⟨"b.png", ⟨[2], none⟩⟩)]

/-- One attachment whose declared file name holds a line feed: `a`, line feed, `b.png`. -/
def lineFeedAttachment : Attachments :=
  some [("photo", ⟨String.mk ['a', Char.ofNat 10, 'b', '.', 'p', 'n', 'g'], ⟨[1], none⟩⟩)]

/-- The ASCII bytes of the JSON object with the fields ok, set to true, and result, set to
true. -/
def okBody : List Byte :=
  [123, 34, 111, 107, 34, 58, 116, 114, 117, 101, 44, 34, 114, 101, 115, 117, 108, 116, 34, 58, 116, 114, 117, 101, 125]

/-- The ASCII bytes of the JSON object with the single field ok, set to true. -/
def okBodyNoResult : List Byte :=
  [123, 34, 111, 107, 34, 58, 116, 114, 117, 101, 125]

/-- The ASCII bytes of the JSON object with the fields ok, set to false, error_code, set to 401,
and description, set to "Unauthorized". -/
def errorBody : List Byte :=
  [123, 34, 111, 107, 34, 58, 102, 97, 108, 115, 101, 44, 34, 101, 114, 114, 111, 114, 95, 99, 111, 100, 101, 34, 58, 52, 48, 49, 44, 34, 100, 101, 115, 99, 114, 105, 112, 116, 105, 111, 110, 34, 58, 34, 85, 110, 97, 117, 116, 104, 111, 114, 105, 122, 101, 100, 34, 125]

/-- A remote side that answers every request with `okBody`. -/
def okNet : Net := sampleNet okBody okEnvelope

/-- A remote side that answers every request with `okBodyNoResult`. -/
def noResultNet : Net := sampleNet okBodyNoResult okEnvelopeNoResult

/-- A remote side that answers every request with `errorBody`. -/
def errorNet : Net := sampleNet errorBody errorEnvelope

/-- A stand-in for the generated method `GetMe`: it calls `Get` of "getMe" on the transport of
the session, the built-in one running against `okNet`, and the user it returns names the
transport that served the call. -/
def sampleGetMe (b : Bot String) : Bot String × Except GoError String :=
  match b.Request with
  | none => (b, .error (.lib "nil transport"))
  | some (.builtin h) =>
    match h.Get okNet "getMe" [] with
    | (h, _, some err) => ({ b with Request := some (.builtin h) }, .error err)
    | (h, _, none) =>
      ({ b with Request := some (.builtin h) }, .ok "fetched through the built-in transport")
  | some (.custom name) => (b, .ok ("fetched through " ++ name))

/-- Options that supply the transport named "mock" and leave every other field zero. -/
def optsWithTransport : BotOpts :=
  { APIURL := "", Request := some (.custom "mock"), GetTimeout := 0, PostTimeout := 0 }

/-! ## Base URL normalization and endpoints -/

theorem GetAPIURL_eq_normalize (h : BuiltinHttp) : h.GetAPIURL = normalize h.ApiUrl := rfl

theorem HasSuffix_iff (s t : String) : HasSuffix s t = true ↔ ∃ v : String, s = v ++ t := by
  constructor
  · intro hs
    simp only [HasSuffix, Bool.and_eq_true, decide_eq_true_eq] at hs
    refine ⟨⟨s.data.take (s.data.length - t.data.length)⟩, ?_⟩
    apply String.ext
    rw [String.data_append]
    have := List.take_append_drop (s.data.length - t.data.length) s.data
    rw [hs.2] at this
    exact this.symm
  · rintro ⟨v, rfl⟩
    simp [HasSuffix]

theorem TrimSuffix_append (v t : String) : TrimSuffix (v ++ t) t = v := by
  have h : HasSuffix (v ++ t) t = true := (HasSuffix_iff _ _).2 ⟨v, rfl⟩
  simp [TrimSuffix, h]

theorem TrimSuffix_of_not (s t : String) (h : ∀ v : String, s ≠ v ++ t) : TrimSuffix s t = s := by
  have hs : HasSuffix s t = false := by
    cases hh : HasSuffix s t
    · rfl
    · obtain ⟨v, hv⟩ := (HasSuffix_iff s t).1 hh
      exact absurd hv (h v)
  simp [TrimSuffix, hs]

theorem append_slash_ne_empty (v : String) : v ++ "/" ≠ "" := by
  intro h
  have := congrArg String.data h
  simp at this

theorem normalize_empty : normalize "" = DefaultAPIURL := rfl

theorem normalize_append_slash (v : String) : normalize (v ++ "/") = v := by
  unfold normalize transportAt BuiltinHttp.GetAPIURL
  simp only [append_slash_ne_empty, if_false]
  exact TrimSuffix_append v "/"

theorem normalize_of_no_slash (u : String) (h0 : u ≠ "") (h : ∀ v : String, u ≠ v ++ "/") :
    normalize u = u := by
  unfold normalize transportAt BuiltinHttp.GetAPIURL
  simp only [h0, if_false]
  exact TrimSuffix_of_not u "/" h

theorem no_slash_x : ∀ v : String, "https://x" ≠ v ++ "/" := by
  intro v hv
  have := congrArg (fun s : String => s.data.getLast?) hv
  simp at this

example : normalize "https://x//" = "https://x/" := by decide
example : normalize (normalize "https://x//") = "https://x" := by decide

theorem normalize_idem_of (u : String) (h1 : u ≠ "/") (h2 : ∀ v : String, u ≠ v ++ "//") :
    normalize (normalize u) = normalize u := by
  by_cases hu : u = ""
  · subst hu
    decide
  · by_cases hs : HasSuffix u "/" = true
    · obtain ⟨v, rfl⟩ := (HasSuffix_iff u "/").1 hs
      rw [normalize_append_slash]
      apply normalize_of_no_slash
      · rintro rfl
        exact h1 (by decide)
      · rintro w rfl
        apply h2 w
        rw [String.append_assoc]
        rfl
    · have hn : ∀ v : String, u ≠ v ++ "/" := fun v hv => hs ((HasSuffix_iff u "/").2 ⟨v, hv⟩)
      rw [normalize_of_no_slash u hu hn]
      exact normalize_of_no_slash u hu hn

theorem normalize_idem_iff (u : String) :
    normalize (normalize u) = normalize u ↔ u ≠ "/" ∧ ∀ v : String, u ≠ v ++ "//" := by
  constructor
  · intro hidem
    constructor
    · rintro rfl
      revert hidem
      decide
    · rintro v rfl
      have hu : v ++ "//" = (v ++ "/") ++ "/" := by
        rw [String.append_assoc]
        rfl
      rw [hu, normalize_append_slash, normalize_append_slash] at hidem
      have := congrArg (fun s : String => s.data.length) hidem
      simp at this
  · rintro ⟨h1, h2⟩
    exact normalize_idem_of u h1 h2

/-- C6: the endpoint of a method is the normalized base URL, then "/bot", the token, "/" and
the method name; normalization gives the default URL for the empty base URL, removes exactly one
trailing "/" from a base URL that ends in one, and leaves every other base URL unchanged, so that
"https://x//" becomes "https://x/". -/
theorem methodEnpoint_spec (u t m : String) (c : HttpClient) (pt gt : Duration) :
    (BuiltinHttp.mk u t c pt gt).methodEnpoint m = normalize u ++ "/bot" ++ t ++ "/" ++ m ∧
    (BuiltinHttp.mk u t c pt gt).GetAPIURL = normalize u ∧
    normalize "" = "https://api.telegram.org" ∧
    normalize (u ++ "/") = u ∧
    (u ≠ "" → (∀ v : String, u ≠ v ++ "/") → normalize u = u) ∧
    normalize "https://x//" = "https://x/" :=
  ⟨rfl, rfl, rfl, normalize_append_slash u, normalize_of_no_slash u, by decide⟩

/-- Witness of C6 at the base URL "https://x", the token "T" and the method "getMe". -/
theorem methodEnpoint_spec_witness :
    (BuiltinHttp.mk "https://x" "T" ⟨0⟩ 0 0).methodEnpoint "getMe" = "https://x/botT/getMe" ∧
    normalize "https://x" = "https://x" := by
  have h := methodEnpoint_spec "https://x" "T" "getMe" ⟨0⟩ 0 0
  refine ⟨by decide, h.2.2.2.2.1 (by decide) no_slash_x⟩

/-- C9, counterexample: normalizing "https://x//" once gives "https://x/", and normalizing it
twice gives "https://x"; normalizing "/" once gives the empty string, and normalizing it twice
gives the default URL. So normalization is not idempotent at "https://x//" nor at "/". -/
theorem normalize_not_idempotent :
    normalize "https://x//" = "https://x/" ∧
    normalize (normalize "https://x//") = "https://x" ∧
    normalize (normalize "https://x//") ≠ normalize "https://x//" ∧
    normalize "/" = "" ∧
    normalize (normalize "/") = "https://api.telegram.org" ∧
    normalize (normalize "/") ≠ normalize "/" := by
  decide

/-- C9, amended: normalization is idempotent at every base URL that is not "/" and does not end
in "//"; in particular "https://x/" and "https://x" both normalize to "https://x". -/
theorem normalize_idempotent (u : String) (h1 : u ≠ "/") (h2 : ∀ v : String, u ≠ v ++ "//") :
    normalize (normalize u) = normalize u ∧
    normalize "https://x/" = "https://x" ∧
    normalize "https://x" = "https://x" :=
  ⟨normalize_idem_of u h1 h2, by decide, by decide⟩

theorem no_double_slash_x : ∀ v : String, "https://x/" ≠ v ++ "//" := by
  intro v hv
  have := congrArg (fun s : String => s.data.reverse.take 2) hv
  simp at this

/-- Witness of C9 (amended) at "https://x/". -/
theorem normalize_idempotent_witness :
    normalize (normalize "https://x/") = normalize "https://x/" :=
  (normalize_idempotent "https://x/" (by decide) no_double_slash_x).1

/-! ## Timeouts -/

theorem GetWithContext_timeouts (env : Net) (h : BuiltinHttp) (pt gt : Duration)
    (ctx : Option Context) (m : String) (p : Values) :
    BuiltinHttp.GetWithContext env { h with PostTimeout := pt, GetTimeout := gt } ctx m p =
      h.GetWithContext env ctx m p := rfl

theorem PostWithContext_timeouts (env : Net) (h : BuiltinHttp) (pt gt : Duration)
    (ctx : Option Context) (m : String) (p : Values) (data : Attachments) :
    BuiltinHttp.PostWithContext env { h with PostTimeout := pt, GetTimeout := gt } ctx m p data =
      h.PostWithContext env ctx m p data := rfl

theorem Get_fst (env : Net) (h : BuiltinHttp) (m : String) (p : Values) :
    (h.Get env m p).1 =
      if h.GetTimeout = 0 then { h with GetTimeout := DefaultGetTimeout } else h := rfl

theorem Post_fst (env : Net) (h : BuiltinHttp) (m : String) (p : Values) (data : Attachments) :
    (h.Post env m p data).1 =
      if h.PostTimeout = 0 then { h with PostTimeout := DefaultPostTimeout } else h := rfl

theorem Get_snd (env : Net) (h : BuiltinHttp) (m : String) (p : Values) :
    (h.Get env m p).2 = h.GetWithContext env (some (Context.WithTimeout Context.Background
      (if h.GetTimeout = 0 then DefaultGetTimeout else h.GetTimeout))) m p := by
  unfold BuiltinHttp.Get
  by_cases h0 : h.GetTimeout = 0
  · simp only [h0, if_true]
    exact GetWithContext_timeouts env h h.PostTimeout DefaultGetTimeout _ m p
  · simp only [h0, if_false]

theorem Post_snd (env : Net) (h : BuiltinHttp) (m : String) (p : Values) (data : Attachments) :
    (h.Post env m p data).2 = h.PostWithContext env (some (Context.WithTimeout Context.Background
      (if h.PostTimeout = 0 then DefaultPostTimeout else h.PostTimeout))) m p data := by
  unfold BuiltinHttp.Post
  by_cases h0 : h.PostTimeout = 0
  · simp only [h0, if_true]
    exact PostWithContext_timeouts env h DefaultPostTimeout h.GetTimeout _ m p data
  · simp only [h0, if_false]

/-- C2, evaluated at a transport with GetTimeout 3 s and PostTimeout 10 s: after
`SetPostTimeout` with 5 s the PostTimeout field is still 10 s and the GetTimeout field is 5 s,
while `SetGetTimeout` with 5 s sets GetTimeout and leaves PostTimeout. -/
theorem SetPostTimeout_writes_GetTimeout :
    (configuredTransport.SetPostTimeout (5 * Second)).PostTimeout = 10 * Second ∧
    (configuredTransport.SetPostTimeout (5 * Second)).GetTimeout = 5 * Second ∧
    configuredTransport.GetTimeout = 3 * Second ∧
    (configuredTransport.SetGetTimeout (5 * Second)).GetTimeout = 5 * Second ∧
    (configuredTransport.SetGetTimeout (5 * Second)).PostTimeout = 10 * Second := by
  decide

/-- C5: `Get` runs `GetWithContext` under a context with timeout DefaultGetTimeout, 3 seconds,
when the GetTimeout field is zero, and with the field's value otherwise; `Post` runs
`PostWithContext` under a context with timeout DefaultPostTimeout, 10 seconds, when the
PostTimeout field is zero, and with the field's value otherwise. -/
theorem timeout_substitution (env : Net) (h : BuiltinHttp) (m : String) (p : Values)
    (data : Attachments) :
    DefaultGetTimeout = 3 * Second ∧ DefaultPostTimeout = 10 * Second ∧
    (h.GetTimeout = 0 → (h.Get env m p).2 = h.GetWithContext env
      (some (Context.WithTimeout Context.Background (3 * Second))) m p) ∧
    (h.GetTimeout ≠ 0 → (h.Get env m p).2 = h.GetWithContext env
      (some (Context.WithTimeout Context.Background h.GetTimeout)) m p) ∧
    (h.PostTimeout = 0 → (h.Post env m p data).2 = h.PostWithContext env
      (some (Context.WithTimeout Context.Background (10 * Second))) m p data) ∧
    (h.PostTimeout ≠ 0 → (h.Post env m p data).2 = h.PostWithContext env
      (some (Context.WithTimeout Context.Background h.PostTimeout)) m p data) := by
  refine ⟨by decide, by decide, ?_, ?_, ?_, ?_⟩
  · intro h0
    rw [Get_snd, if_pos h0]
    rfl
  · intro h0
    rw [Get_snd, if_neg h0]
  · intro h0
    rw [Post_snd, if_pos h0]
    rfl
  · intro h0
    rw [Post_snd, if_neg h0]

/-- Witness of C5: with both timeout fields zero `Get` uses 3 seconds and `Post` 10 seconds. -/
theorem timeout_substitution_witness :
    (sampleTransport.Get okNet "getMe" []).2 =
      sampleTransport.GetWithContext okNet
        (some (Context.WithTimeout Context.Background (3 * Second))) "getMe" [] ∧
    (sampleTransport.Post okNet "getMe" [] none).2 =
      sampleTransport.PostWithContext okNet
        (some (Context.WithTimeout Context.Background (10 * Second))) "getMe" [] none :=
  have h := timeout_substitution okNet sampleTransport "getMe" [] none
  ⟨h.2.2.1 (by decide), h.2.2.2.2.1 (by decide)⟩

/-- C10, counterexample: on a transport whose timeout fields are both zero, the GetTimeout field
is 3 seconds after a call to `Get` and the PostTimeout field is 10 seconds after a call to
`Post`. -/
theorem default_timeout_is_stored :
    sampleTransport.GetTimeout = 0 ∧ sampleTransport.PostTimeout = 0 ∧
    (sampleTransport.Get okNet "getMe" []).1.GetTimeout = 3000000000 ∧
    (sampleTransport.Get okNet "getMe" []).1.GetTimeout ≠ 0 ∧
    (sampleTransport.Post okNet "getMe" [] none).1.PostTimeout = 10000000000 ∧
    (sampleTransport.Post okNet "getMe" [] none).1.PostTimeout ≠ 0 := by
  decide

/-- C10, amended: a call to `Get` on a transport whose GetTimeout field is zero stores
DefaultGetTimeout in that field and changes no other field, and a call to `Post` on a transport
whose PostTimeout field is zero stores DefaultPostTimeout in that field and changes no other
field. -/
theorem default_timeout_stored_by_call (env : Net) (h : BuiltinHttp) (m : String) (p : Values)
    (data : Attachments) :
    (h.GetTimeout = 0 →
      (h.Get env m p).1 = { h with GetTimeout := DefaultGetTimeout } ∧
      (h.Get env m p).1.GetTimeout = 3 * Second) ∧
    (h.PostTimeout = 0 →
      (h.Post env m p data).1 = { h with PostTimeout := DefaultPostTimeout } ∧
      (h.Post env m p data).1.PostTimeout = 10 * Second) := by
  constructor
  · intro h0
    rw [Get_fst, if_pos h0]
    exact ⟨rfl, rfl⟩
  · intro h0
    rw [Post_fst, if_pos h0]
    exact ⟨rfl, rfl⟩

/-- Witness of C10 (amended) at a transport whose timeout fields are both zero. -/
theorem default_timeout_stored_by_call_witness :
    (sampleTransport.Get okNet "getMe" []).1.GetTimeout = 3 * Second ∧
    (sampleTransport.Post okNet "getMe" [] none).1.PostTimeout = 10 * Second :=
  have h := default_timeout_stored_by_call okNet sampleTransport "getMe" [] none
  ⟨(h.1 (by decide)).2, (h.2 (by decide)).2⟩

/-! ## The round trip -/

/-- The request `GetWithContext` hands to the client. -/
theorem GetWithContext_unfold (env : Net) (h : BuiltinHttp) (c : Context) (m : String)
    (p : Values) :
    h.GetWithContext env (some c) m p =
      match env.parseError (h.methodEnpoint m) with
      | some err => (none, some (.wrap ("failed to build GET request to " ++ m) err))
      | none =>
        match env.Do h.Client
          { ctx := c, Method := "GET", URL := h.methodEnpoint m, RawQuery := env.Encode p,
            Header := [], Body := none } with
        | .error err => (none, some (.wrap ("failed to execute GET request to " ++ m) err))
        | .ok body =>
          match env.Decode body with
          | .error err => (none, some (.wrap ("failed to decode GET request to " ++ m) err))
          | .ok r =>
            if r.Ok = true then (r.Result, none)
            else (none, some (.telegram ⟨m, p, r.ErrorCode, r.Description⟩)) := by
  unfold BuiltinHttp.GetWithContext NewRequestWithContext
  cases hp : env.parseError (h.methodEnpoint m) with
  | some err => rfl
  | none =>
    dsimp only
    cases hd : env.Do h.Client
      { ctx := c, Method := "GET", URL := h.methodEnpoint m, RawQuery := env.Encode p,
        Header := [], Body := none } with
    | error err => rfl
    | ok body =>
      dsimp only
      cases hr : env.Decode body with
      | error err => rfl
      | ok r =>
        dsimp only
        cases r.Ok <;> rfl

/-- The request `PostWithContext` hands to the client, once the body is filled. -/
theorem PostWithContext_unfold (env : Net) (h : BuiltinHttp) (c : Context) (m : String)
    (p : Values) (data : Attachments) (buf : Buffer) (ct : String)
    (hfill : (if data.len > 0 then fillBuffer env.Boundary ⟨[], false⟩ data
      else (⟨[], false⟩, "application/json", none)) = (buf, ct, none)) :
    h.PostWithContext env (some c) m p data =
      match env.parseError (h.methodEnpoint m) with
      | some err => (none, some (.wrap ("failed to build POST request to " ++ m) err))
      | none =>
        match env.Do h.Client
          { ctx := c, Method := "POST", URL := h.methodEnpoint m, RawQuery := env.Encode p,
            Header := [("Content-Type", ct)], Body := some buf } with
        | .error err => (none, some (.wrap ("failed to execute POST request to " ++ m) err))
        | .ok body =>
          match env.Decode body with
          | .error err => (none, some (.wrap ("failed to decode POST request to " ++ m) err))
          | .ok r =>
            if r.Ok = true then (r.Result, none)
            else (none, some (.telegram ⟨m, p, r.ErrorCode, r.Description⟩)) := by
  unfold BuiltinHttp.PostWithContext NewRequestWithContext
  simp only [hfill]
  cases hp : env.parseError (h.methodEnpoint m) with
  | some err => rfl
  | none =>
    dsimp only
    cases hd : env.Do h.Client
      { ctx := c, Method := "POST", URL := h.methodEnpoint m, RawQuery := env.Encode p,
        Header := Header.Set [] "Content-Type" ct, Body := some buf } with
    | error err =>
      have hd2 := hd
      simp only [Header.Set, List.filter_nil, List.nil_append] at hd2
      rw [hd2]
    | ok body =>
      have hd2 := hd
      simp only [Header.Set, List.filter_nil, List.nil_append] at hd2
      rw [hd2]
      dsimp only
      cases hr : env.Decode body with
      | error err => rfl
      | ok r =>
        dsimp only
        cases r.Ok <;> rfl

/-- C1: when the round trip of `GetWithContext` or `PostWithContext` (and so of `Get` or `Post`)
ends in a decoded envelope `r`, the call returns `(r.Result, nil)` if `r.Ok` is true, and
otherwise a nil result with a `TelegramError` holding the method name passed in, the parameters
passed in, the envelope's error code and the envelope's description. -/
theorem envelope_outcome (env : Net) (h : BuiltinHttp) (c : Context) (m : String) (p : Values)
    (data : Attachments) (r : Response) :
    (∀ body : List Byte,
      env.parseError (h.methodEnpoint m) = none →
      env.Do h.Client
        { ctx := c, Method := "GET", URL := h.methodEnpoint m, RawQuery := env.Encode p,
          Header := [], Body := none } = .ok body →
      env.Decode body = .ok r →
      (r.Ok = true → h.GetWithContext env (some c) m p = (r.Result, none)) ∧
      (r.Ok = false → h.GetWithContext env (some c) m p =
        (none, some (.telegram
          { Method := m, Params := p, Code := r.ErrorCode, Description := r.Description })))) ∧
    (∀ (buf : Buffer) (ct : String) (body : List Byte),
      (if data.len > 0 then fillBuffer env.Boundary ⟨[], false⟩ data
        else (⟨[], false⟩, "application/json", none)) = (buf, ct, none) →
      env.parseError (h.methodEnpoint m) = none →
      env.Do h.Client
        { ctx := c, Method := "POST", URL := h.methodEnpoint m, RawQuery := env.Encode p,
          Header := [("Content-Type", ct)], Body := some buf } = .ok body →
      env.Decode body = .ok r →
      (r.Ok = true → h.PostWithContext env (some c) m p data = (r.Result, none)) ∧
      (r.Ok = false → h.PostWithContext env (some c) m p data =
        (none, some (.telegram
          { Method := m, Params := p, Code := r.ErrorCode, Description := r.Description })))) ∧
    (∀ body : List Byte,
      env.parseError (h.methodEnpoint m) = none →
      env.Do h.Client
        { ctx := Context.WithTimeout Context.Background
            (if h.GetTimeout = 0 then DefaultGetTimeout else h.GetTimeout),
          Method := "GET", URL := h.methodEnpoint m, RawQuery := env.Encode p,
          Header := [], Body := none } = .ok body →
      env.Decode body = .ok r →
      (r.Ok = true → (h.Get env m p).2 = (r.Result, none)) ∧
      (r.Ok = false → (h.Get env m p).2 =
        (none, some (.telegram
          { Method := m, Params := p, Code := r.ErrorCode, Description := r.Description })))) ∧
    (∀ (buf : Buffer) (ct : String) (body : List Byte),
      (if data.len > 0 then fillBuffer env.Boundary ⟨[], false⟩ data
        else (⟨[], false⟩, "application/json", none)) = (buf, ct, none) →
      env.parseError (h.methodEnpoint m) = none →
      env.Do h.Client
        { ctx := Context.WithTimeout Context.Background
            (if h.PostTimeout = 0 then DefaultPostTimeout else h.PostTimeout),
          Method := "POST", URL := h.methodEnpoint m, RawQuery := env.Encode p,
          Header := [("Content-Type", ct)], Body := some buf } = .ok body →
      env.Decode body = .ok r →
      (r.Ok = true → (h.Post env m p data).2 = (r.Result, none)) ∧
      (r.Ok = false → (h.Post env m p data).2 =
        (none, some (.telegram
          { Method := m, Params := p, Code := r.ErrorCode, Description := r.Description })))) := by
  refine ⟨?_, ?_, ?_, ?_⟩
  · intro body hp hd hr
    rw [GetWithContext_unfold]
    simp only [hp, hd, hr]
    constructor <;> intro hok <;> simp [hok]
  · intro buf ct body hfill hp hd hr
    rw [PostWithContext_unfold env h c m p data buf ct hfill]
    simp only [hp, hd, hr]
    constructor <;> intro hok <;> simp [hok]
  · intro body hp hd hr
    rw [Get_snd, GetWithContext_unfold]
    simp only [hp, hd, hr]
    constructor <;> intro hok <;> simp [hok]
  · intro buf ct body hfill hp hd hr
    rw [Post_snd, PostWithContext_unfold env h _ m p data buf ct hfill]
    simp only [hp, hd, hr]
    constructor <;> intro hok <;> simp [hok]

/-- Witness of C1: `Get` of "getMe" against a remote side that answers with error code 401 and
the description "Unauthorized" returns a nil result and the `TelegramError` of that answer, and
`PostWithContext` of "sendPhoto" with one attachment against a remote side that answers with ok
true returns the result of that answer. -/
theorem envelope_outcome_witness :
    (sampleTransport.Get errorNet "getMe" [("a", ["1"])]).2 =
      (none, some (.telegram
        { Method := "getMe", Params := [("a", ["1"])], Code := 401,
          Description := "Unauthorized" })) ∧
    sampleTransport.PostWithContext okNet (some Context.Background) "sendPhoto" []
        (some [("photo", ⟨"a.png", ⟨[1, 2, 3], none⟩⟩)]) =
      (some [116, 114, 117, 101], none) :=
  ⟨((envelope_outcome errorNet sampleTransport Context.Background "getMe"
      [("a", ["1"])] none errorEnvelope).2.2.1 errorBody rfl rfl rfl).2 rfl,
   ((envelope_outcome okNet sampleTransport Context.Background "sendPhoto" []
      (some [("photo", ⟨"a.png", ⟨[1, 2, 3], none⟩⟩)]) okEnvelope).2.1
      ⟨[⟨"photo", "a.png", [1, 2, 3]⟩], true⟩ "multipart/form-data; boundary=xyz" okBody
      rfl rfl rfl rfl).1 rfl⟩

/-! ## Multipart bodies -/

theorem escapeChars_plain (cs : List Char)
    (h : cs.all (fun c =>
      c != Char.ofNat 92 && c != Char.ofNat 34 && c != Char.ofNat 13 && c != Char.ofNat 10)
        = true) :
    escapeChars cs = cs := by
  induction cs with
  | nil => rfl
  | cons c cs ih =>
    simp only [List.all_cons, Bool.and_eq_true, bne_iff_ne, ne_eq] at h
    obtain ⟨⟨⟨⟨h1, h2⟩, h3⟩, h4⟩, hrest⟩ := h
    have hrest2 : escapeChars cs = cs := ih (by simpa using hrest)
    simp [escapeChars, escapeChar, h1, h2, h3, h4, hrest2]

theorem escapeQuotes_plain (s : String) (h : plainName s = true) : escapeQuotes s = s := by
  unfold escapeQuotes
  rw [escapeChars_plain s.data h]

theorem writePart_CreateFormFile (w : Writer) (f n : String) (bs : List Byte) :
    (w.CreateFormFile f n).1.writePart bs =
      { w with buf := { w.buf with
          parts := w.buf.parts ++ [⟨escapeQuotes f, escapeQuotes n, bs⟩] } } := by
  simp [Writer.CreateFormFile, Writer.writePart, List.getLast?_append, List.dropLast_concat]

theorem fillBufferLoop_cons (w : Writer) (e : String × NamedReader)
    (rest : List (String × NamedReader)) :
    fillBufferLoop w (e :: rest) =
      match e.2.stream.err with
      | some err =>
        ({ w with buf := { w.buf with parts := w.buf.parts ++ [formPart e] } },
          some (.wrap ("failed to copy file contents of field " ++ e.1 ++ " to form") err))
      | none =>
        fillBufferLoop { w with buf := { w.buf with parts := w.buf.parts ++ [formPart e] } }
          rest := by
  obtain ⟨field, file⟩ := e
  have hw := writePart_CreateFormFile w field (if file.Name = "" then field else file.Name)
    file.stream.data
  rw [fillBufferLoop]
  simp only [Writer.CreateFormFile, ioCopy, formPart] at hw ⊢
  rw [hw]
  cases file.stream.err <;> rfl

theorem fillBufferLoop_clean (es : List (String × NamedReader)) :
    ∀ w : Writer, (∀ e ∈ es, e.2.stream.err = none) →
      fillBufferLoop w es =
        ({ w with buf := { w.buf with parts := w.buf.parts ++ es.map formPart } }, none) := by
  induction es with
  | nil => intro w _; simp [fillBufferLoop]
  | cons e rest ih =>
    intro w hclean
    have he : e.2.stream.err = none := hclean e (List.mem_cons_self _ _)
    rw [fillBufferLoop_cons, he]
    dsimp only
    rw [ih _ (fun x hx => hclean x (List.mem_cons_of_mem _ hx))]
    simp

theorem fillBufferLoop_error (es : List (String × NamedReader)) :
    ∀ w : Writer, (fillBufferLoop w es).2 = none → ∀ e ∈ es, e.2.stream.err = none := by
  induction es with
  | nil => intro w _ e he; cases he
  | cons x rest ih =>
    intro w hnone e he
    rw [fillBufferLoop_cons] at hnone
    cases hx : x.2.stream.err with
    | some err => rw [hx] at hnone; cases hnone
    | none =>
      rw [hx] at hnone
      rcases List.mem_cons.1 he with rfl | hmem
      · exact hx
      · exact ih _ hnone e hmem

theorem fillBuffer_clean (boundary : String) (b : Buffer) (data : Attachments)
    (hclean : ∀ e ∈ data.entries, e.2.stream.err = none) :
    fillBuffer boundary b data =
      ({ parts := b.parts ++ data.entries.map formPart, closed := true },
        "multipart/form-data; boundary=" ++ boundary, none) := by
  unfold fillBuffer
  simp only [fillBufferLoop_clean data.entries (NewWriter boundary b) hclean]
  rfl

/-- C8, counterexample: of two attachments whose first stream fails after one byte,
`fillBuffer` writes one part only, leaves the form open and returns the error; and a declared
file name that holds a line feed stands in the part with `%0A` in its place. -/
theorem fillBuffer_stops_at_failing_stream :
    failingAttachments.len = 2 ∧
    fillBuffer "xyz" ⟨[], false⟩ failingAttachments =
      (⟨[⟨"a", "a.png", [1]⟩], false⟩, "",
        some (.wrap "failed to copy file contents of field a to form"
          (.lib "unexpected EOF"))) ∧
    (fillBuffer "xyz" ⟨[], false⟩ failingAttachments).1.parts.length = 1 ∧
    fillBuffer "xyz" ⟨[], false⟩ lineFeedAttachment =
      (⟨[⟨"photo", "a%0Ab.png", [1]⟩], true⟩, "multipart/form-data; boundary=xyz", none) ∧
    "a%0Ab.png" ≠ String.mk ['a', Char.ofNat 10, 'b', '.', 'p', 'n', 'g'] := by
  decide

/-- C8, amended: when every attachment's stream is read to its end without error, `fillBuffer`
returns without error and has added to the buffer exactly one part per map entry, in the order of
the iteration: its field name is the key, its file name is the attachment's `Name()` when that is
non-empty and the key otherwise, both as `escapeQuotes` writes them, and its body is the bytes of
the attachment's stream. It returns without error only if every stream is read without error.
`escapeQuotes` leaves a name without backslash, double quote, carriage return and line feed as it
is. For the single attachment with field "photo", file name "a.png" and content `X`, the form is
the one part with field name "photo", file name "a.png" and body `X`. -/
theorem fillBuffer_parts (boundary : String) (b : Buffer) (data : Attachments)
    (X : List Byte) :
    ((∀ e ∈ data.entries, e.2.stream.err = none) →
      fillBuffer boundary b data =
        ({ parts := b.parts ++ data.entries.map
              (fun e => ⟨escapeQuotes e.1,
                escapeQuotes (if e.2.Name = "" then e.1 else e.2.Name), e.2.stream.data⟩),
           closed := true },
          "multipart/form-data; boundary=" ++ boundary, none)) ∧
    ((fillBuffer boundary b data).2.2 = none → ∀ e ∈ data.entries, e.2.stream.err = none) ∧
    (∀ s : String, plainName s = true → escapeQuotes s = s) ∧
    fillBuffer boundary ⟨[], false⟩
        (some [("photo", (NamedFile.mk ⟨X, none⟩ "a.png").asNamedReader)]) =
      (⟨[⟨"photo", "a.png", X⟩], true⟩, "multipart/form-data; boundary=" ++ boundary, none) ∧
    fillBuffer boundary ⟨[], false⟩
        (some [("photo", (NamedFile.mk ⟨X, none⟩ "").asNamedReader)]) =
      (⟨[⟨"photo", "photo", X⟩], true⟩, "multipart/form-data; boundary=" ++ boundary, none) := by
  refine ⟨fun hclean => fillBuffer_clean boundary b data hclean, ?_, escapeQuotes_plain, ?_, ?_⟩
  · intro hnone
    apply fillBufferLoop_error data.entries (NewWriter boundary b)
    unfold fillBuffer at hnone
    cases hl : fillBufferLoop (NewWriter boundary b) data.entries with
    | mk w oe =>
      simp only [hl] at hnone
      cases oe with
      | none => rfl
      | some err => simp at hnone
  · rw [fillBuffer_clean]
    · have h1 : escapeQuotes "photo" = "photo" := by decide
      have h2 : escapeQuotes "a.png" = "a.png" := by decide
      simp [Attachments.entries, formPart, NamedFile.asNamedReader, h1, h2]
    · intro e he
      simp only [Attachments.entries, List.mem_singleton] at he
      subst he
      rfl
  · rw [fillBuffer_clean]
    · have h1 : escapeQuotes "photo" = "photo" := by decide
      simp [Attachments.entries, formPart, NamedFile.asNamedReader, h1]
    · intro e he
      simp only [Attachments.entries, List.mem_singleton] at he
      subst he
      rfl

/-- Witness of C8 (amended): two attachments, the second without a declared file name. -/
theorem fillBuffer_parts_witness :
    fillBuffer "xyz" ⟨[], false⟩
        (some [("photo", ⟨"a.png", ⟨[1, 2, 3], none⟩⟩), ("thumb", ⟨"", ⟨[4], none⟩⟩)]) =
      (⟨[⟨"photo", "a.png", [1, 2, 3]⟩, ⟨"thumb", "thumb", [4]⟩], true⟩,
        "multipart/form-data; boundary=xyz", none) :=
  ((fillBuffer_parts "xyz" ⟨[], false⟩
    (some [("photo", ⟨"a.png", ⟨[1, 2, 3], none⟩⟩), ("thumb", ⟨"", ⟨[4], none⟩⟩)]) []).1
    (by decide)).trans (by decide)

/-! ## Requests without attachments, and nil results -/

/-- C7: a POST whose attachment map is nil or empty hands to the client a request whose body is
the buffer nothing was written to, which holds no byte, whose only header is Content-Type with
the value "application/json", and whose query string is the encoding of the parameters. -/
theorem post_without_attachments (env : Net) (h : BuiltinHttp) (c : Context) (m : String)
    (p : Values) (data : Attachments) (wire : Wire) (hdata : data = none ∨ data = some []) :
    data.len = 0 ∧
    Buffer.Bytes ⟨[], false⟩ wire = [] ∧
    h.PostWithContext env (some c) m p data =
      match env.parseError (h.methodEnpoint m) with
      | some err => (none, some (.wrap ("failed to build POST request to " ++ m) err))
      | none =>
        match env.Do h.Client
          { ctx := c, Method := "POST", URL := h.methodEnpoint m, RawQuery := env.Encode p,
            Header := [("Content-Type", "application/json")], Body := some ⟨[], false⟩ } with
        | .error err => (none, some (.wrap ("failed to execute POST request to " ++ m) err))
        | .ok body =>
          match env.Decode body with
          | .error err => (none, some (.wrap ("failed to decode POST request to " ++ m) err))
          | .ok r =>
            if r.Ok = true then (r.Result, none)
            else (none, some (.telegram ⟨m, p, r.ErrorCode, r.Description⟩)) := by
  have hlen : data.len = 0 := by
    rcases hdata with rfl | rfl <;> rfl
  refine ⟨hlen, rfl, ?_⟩
  apply PostWithContext_unfold
  simp [hlen]

/-- Witness of C7: with the empty map and one parameter, against a remote side that answers with
a successful envelope. -/
theorem post_without_attachments_witness :
    sampleTransport.PostWithContext okNet (some Context.Background)
      "sendMessage" [("chat_id", ["1"])] (some []) = (some [116, 114, 117, 101], none) :=
  (post_without_attachments okNet sampleTransport Context.Background
    "sendMessage" [("chat_id", ["1"])] (some []) ⟨fun _ _ _ => [], []⟩ (Or.inr rfl)).2.2.trans rfl

theorem PostWithContext_fill_error (env : Net) (h : BuiltinHttp) (ctx : Option Context)
    (m : String) (p : Values) (data : Attachments) (buf : Buffer) (ct : String) (err : GoError)
    (hfill : (if data.len > 0 then fillBuffer env.Boundary ⟨[], false⟩ data
      else (⟨[], false⟩, "application/json", none)) = (buf, ct, some err)) :
    h.PostWithContext env ctx m p data = (none, some err) := by
  unfold BuiltinHttp.PostWithContext
  simp only [hfill]

theorem GetWithContext_nil_error (env : Net) (h : BuiltinHttp) (c : Context) (m : String)
    (p : Values) (res : RawMessage) (hres : h.GetWithContext env (some c) m p = (res, none)) :
    env.parseError (h.methodEnpoint m) = none ∧
    ∃ (body : List Byte) (r : Response),
      env.Do h.Client
        { ctx := c, Method := "GET", URL := h.methodEnpoint m, RawQuery := env.Encode p,
          Header := [], Body := none } = .ok body ∧
      env.Decode body = .ok r ∧ r.Ok = true ∧ r.Result = res := by
  rw [GetWithContext_unfold] at hres
  cases hp : env.parseError (h.methodEnpoint m) with
  | some err => rw [hp] at hres; simp at hres
  | none =>
    rw [hp] at hres
    dsimp only at hres
    cases hd : env.Do h.Client
      { ctx := c, Method := "GET", URL := h.methodEnpoint m, RawQuery := env.Encode p,
        Header := [], Body := none } with
    | error err => rw [hd] at hres; simp at hres
    | ok body =>
      rw [hd] at hres
      dsimp only at hres
      cases hr : env.Decode body with
      | error err => rw [hr] at hres; simp at hres
      | ok r =>
        rw [hr] at hres
        dsimp only at hres
        cases hok : r.Ok with
        | false => rw [hok] at hres; simp at hres
        | true =>
          rw [hok] at hres
          simp only [if_true, Prod.mk.injEq, and_true] at hres
          exact ⟨rfl, body, r, rfl, hr, hok, hres⟩

theorem GetWithContext_of_envelope (env : Net) (h : BuiltinHttp) (c : Context) (m : String)
    (p : Values) (body : List Byte) (r : Response)
    (hp : env.parseError (h.methodEnpoint m) = none)
    (hd : env.Do h.Client
      { ctx := c, Method := "GET", URL := h.methodEnpoint m, RawQuery := env.Encode p,
        Header := [], Body := none } = .ok body)
    (hr : env.Decode body = .ok r) (hok : r.Ok = true) :
    h.GetWithContext env (some c) m p = (r.Result, none) := by
  rw [GetWithContext_unfold]
  simp only [hp, hd, hr, hok, if_true]

theorem PostWithContext_nil_error (env : Net) (h : BuiltinHttp) (c : Context) (m : String)
    (p : Values) (data : Attachments) (res : RawMessage)
    (hres : h.PostWithContext env (some c) m p data = (res, none)) :
    ∃ (buf : Buffer) (ct : String),
      (if data.len > 0 then fillBuffer env.Boundary ⟨[], false⟩ data
        else (⟨[], false⟩, "application/json", none)) = (buf, ct, none) ∧
      env.parseError (h.methodEnpoint m) = none ∧
      ∃ (body : List Byte) (r : Response),
        env.Do h.Client
          { ctx := c, Method := "POST", URL := h.methodEnpoint m, RawQuery := env.Encode p,
            Header := [("Content-Type", ct)], Body := some buf } = .ok body ∧
        env.Decode body = .ok r ∧ r.Ok = true ∧ r.Result = res := by
  cases hfill : (if data.len > 0 then fillBuffer env.Boundary ⟨[], false⟩ data
      else (⟨[], false⟩, "application/json", none)) with
  | mk buf rest =>
    obtain ⟨ct, oe⟩ := rest
    cases oe with
    | some err =>
      rw [PostWithContext_fill_error env h _ m p data buf ct err hfill] at hres
      simp at hres
    | none =>
      rw [PostWithContext_unfold env h c m p data buf ct hfill] at hres
      cases hp : env.parseError (h.methodEnpoint m) with
      | some err => rw [hp] at hres; simp at hres
      | none =>
        rw [hp] at hres
        dsimp only at hres
        cases hd : env.Do h.Client
          { ctx := c, Method := "POST", URL := h.methodEnpoint m, RawQuery := env.Encode p,
            Header := [("Content-Type", ct)], Body := some buf } with
        | error err => rw [hd] at hres; simp at hres
        | ok body =>
          rw [hd] at hres
          dsimp only at hres
          cases hr : env.Decode body with
          | error err => rw [hr] at hres; simp at hres
          | ok r =>
            rw [hr] at hres
            dsimp only at hres
            cases hok : r.Ok with
            | false => rw [hok] at hres; simp at hres
            | true =>
              rw [hok] at hres
              simp only [if_true, Prod.mk.injEq, and_true] at hres
              exact ⟨buf, ct, rfl, rfl, body, r, hd, hr, hok, hres⟩

theorem PostWithContext_of_envelope (env : Net) (h : BuiltinHttp) (c : Context) (m : String)
    (p : Values) (data : Attachments) (buf : Buffer) (ct : String) (body : List Byte)
    (r : Response)
    (hfill : (if data.len > 0 then fillBuffer env.Boundary ⟨[], false⟩ data
      else (⟨[], false⟩, "application/json", none)) = (buf, ct, none))
    (hp : env.parseError (h.methodEnpoint m) = none)
    (hd : env.Do h.Client
      { ctx := c, Method := "POST", URL := h.methodEnpoint m, RawQuery := env.Encode p,
        Header := [("Content-Type", ct)], Body := some buf } = .ok body)
    (hr : env.Decode body = .ok r) (hok : r.Ok = true) :
    h.PostWithContext env (some c) m p data = (r.Result, none) := by
  rw [PostWithContext_unfold env h c m p data buf ct hfill]
  simp only [hp, hd, hr, hok, if_true]

/-- C4, counterexample: against a remote side whose envelope has ok true and no result field,
`Get` and `Post` return a nil result together with a nil error. -/
theorem nil_result_with_nil_error :
    okEnvelopeNoResult.Ok = true ∧ okEnvelopeNoResult.Result = none ∧
    (sampleTransport.Get noResultNet "getMe" []).2 = (none, none) ∧
    (sampleTransport.Post noResultNet "getMe" [] none).2 = (none, none) := by
  decide

/-- C4, amended: whenever `Get` or `Post` returns a nil error, the request the call built was
answered by the client, the answer decoded to an envelope with ok true, and the payload returned
is the result field of that envelope, so it is non-nil whenever that envelope has a result field.
Conversely, whenever the request the call builds is answered and the answer decodes to an
envelope with ok true, the call returns the result field of that envelope with a nil error; that
is a nil result with a nil error when the envelope has no result field. -/
theorem nil_error_returns_envelope_result (env : Net) (h : BuiltinHttp) (m : String)
    (p : Values) (data : Attachments) (res : RawMessage) :
    ((h.Get env m p).2 = (res, none) →
      env.parseError (h.methodEnpoint m) = none ∧
      ∃ (body : List Byte) (r : Response),
        env.Do h.Client
          { ctx := Context.WithTimeout Context.Background
              (if h.GetTimeout = 0 then DefaultGetTimeout else h.GetTimeout),
            Method := "GET", URL := h.methodEnpoint m, RawQuery := env.Encode p,
            Header := [], Body := none } = .ok body ∧
        env.Decode body = .ok r ∧ r.Ok = true ∧ r.Result = res) ∧
    ((h.Post env m p data).2 = (res, none) →
      ∃ (buf : Buffer) (ct : String),
        (if data.len > 0 then fillBuffer env.Boundary ⟨[], false⟩ data
          else (⟨[], false⟩, "application/json", none)) = (buf, ct, none) ∧
        env.parseError (h.methodEnpoint m) = none ∧
        ∃ (body : List Byte) (r : Response),
          env.Do h.Client
            { ctx := Context.WithTimeout Context.Background
                (if h.PostTimeout = 0 then DefaultPostTimeout else h.PostTimeout),
              Method := "POST", URL := h.methodEnpoint m, RawQuery := env.Encode p,
              Header := [("Content-Type", ct)], Body := some buf } = .ok body ∧
          env.Decode body = .ok r ∧ r.Ok = true ∧ r.Result = res) ∧
    (∀ (body : List Byte) (r : Response),
      env.parseError (h.methodEnpoint m) = none →
      env.Do h.Client
        { ctx := Context.WithTimeout Context.Background
            (if h.GetTimeout = 0 then DefaultGetTimeout else h.GetTimeout),
          Method := "GET", URL := h.methodEnpoint m, RawQuery := env.Encode p,
          Header := [], Body := none } = .ok body →
      env.Decode body = .ok r → r.Ok = true →
      (h.Get env m p).2 = (r.Result, none) ∧
      (r.Result = none → (h.Get env m p).2 = (none, none))) ∧
    (∀ (buf : Buffer) (ct : String) (body : List Byte) (r : Response),
      (if data.len > 0 then fillBuffer env.Boundary ⟨[], false⟩ data
        else (⟨[], false⟩, "application/json", none)) = (buf, ct, none) →
      env.parseError (h.methodEnpoint m) = none →
      env.Do h.Client
        { ctx := Context.WithTimeout Context.Background
            (if h.PostTimeout = 0 then DefaultPostTimeout else h.PostTimeout),
          Method := "POST", URL := h.methodEnpoint m, RawQuery := env.Encode p,
          Header := [("Content-Type", ct)], Body := some buf } = .ok body →
      env.Decode body = .ok r → r.Ok = true →
      (h.Post env m p data).2 = (r.Result, none) ∧
      (r.Result = none → (h.Post env m p data).2 = (none, none))) := by
  refine ⟨?_, ?_, ?_, ?_⟩
  · intro hres
    rw [Get_snd] at hres
    exact GetWithContext_nil_error env h _ m p res hres
  · intro hres
    rw [Post_snd] at hres
    exact PostWithContext_nil_error env h _ m p data res hres
  · intro body r hp hd hr hok
    have hget : (h.Get env m p).2 = (r.Result, none) := by
      rw [Get_snd]
      exact GetWithContext_of_envelope env h _ m p body r hp hd hr hok
    refine ⟨hget, fun hnil => ?_⟩
    rw [hget, hnil]
  · intro buf ct body r hfill hp hd hr hok
    have hpost : (h.Post env m p data).2 = (r.Result, none) := by
      rw [Post_snd]
      exact PostWithContext_of_envelope env h _ m p data buf ct body r hfill hp hd hr hok
    refine ⟨hpost, fun hnil => ?_⟩
    rw [hpost, hnil]

/-- Witness of C4 (amended): `Get` against a remote side whose envelope has ok true and the
result `true` returns that result with a nil error, so the answer to its request decodes to an
envelope with that result; and `Post` against a remote side whose envelope has ok true and no
result field returns a nil result with a nil error. -/
theorem nil_error_returns_envelope_result_witness :
    (okNet.parseError (sampleTransport.methodEnpoint "getMe") = none ∧
      ∃ (body : List Byte) (r : Response),
        okNet.Do sampleTransport.Client
          { ctx := Context.WithTimeout Context.Background
              (if sampleTransport.GetTimeout = 0 then DefaultGetTimeout
                else sampleTransport.GetTimeout),
            Method := "GET", URL := sampleTransport.methodEnpoint "getMe",
            RawQuery := okNet.Encode [],
            Header := [], Body := none } = .ok body ∧
        okNet.Decode body = .ok r ∧ r.Ok = true ∧ r.Result = some [116, 114, 117, 101]) ∧
    (sampleTransport.Post noResultNet "getMe" [] none).2 = (none, none) :=
  ⟨(nil_error_returns_envelope_result okNet sampleTransport "getMe" [] none
      (some [116, 114, 117, 101])).1 rfl,
   ((nil_error_returns_envelope_result noResultNet sampleTransport "getMe" [] none
      none).2.2.2 ⟨[], false⟩ "application/json" okBodyNoResult okEnvelopeNoResult
      rfl rfl rfl rfl rfl).2 rfl⟩

/-! ## Session construction -/

/-- C3, evaluated at the token "T" and options that supply the transport "mock": the identity
fetch goes through the built-in transport, and the session `NewBot` returns holds the built-in
transport, not the supplied one. -/
theorem NewBot_discards_supplied_transport :
    optsWithTransport.Request = some (.custom "mock") ∧
    NewBot sampleGetMe "T" (some optsWithTransport) =
      (some { User := "fetched through the built-in transport",
              Request := some (.builtin
                { ApiUrl := "", BotToken := "T", Client := ⟨0⟩, PostTimeout := 0,
                  GetTimeout := 3 * Second }) }, none) ∧
    (∀ b : Bot String, NewBot sampleGetMe "T" (some optsWithTransport) = (some b, none) →
      b.Request ≠ optsWithTransport.Request) := by
  have hrun : NewBot sampleGetMe "T" (some optsWithTransport) =
      (some { User := "fetched through the built-in transport",
              Request := some (.builtin
                { ApiUrl := "", BotToken := "T", Client := ⟨0⟩, PostTimeout := 0,
                  GetTimeout := 3 * Second }) }, none) := by
    decide
  refine ⟨rfl, hrun, ?_⟩
  intro b hb
  rw [hrun] at hb
  simp only [Prod.mk.injEq, Option.some.injEq, and_true] at hb
  rw [← hb]
  decide

end Gotgbot
